import Mathlib

/-!
Shallow embedding of `source/common/tracing/http_tracer_impl.cc` (Envoy HTTP
tracing utilities) and proofs about its trace decision, span creation and span
finalization logic.

Modelling conventions:
- Header entries and the optional stream-info accessors become `Option`-valued
  fields; a C++ null-pointer dereference of an absent entry is modelled by the
  surrounding function returning `none` (the fault / error outcome).
- A span is external and opaque in the source; the sequence of mutations the
  code performs on it (`setTag`, `log`, `finishSpan`) is modelled as the list
  of `SpanOp` values the function emits, in execution order.
- Tag keys (`Tracing::Tags::get().X`) are fixed string constants defined
  outside this translation unit; they are modelled symbolically by the
  inductive `TagKey`, with `TagKey.custom` for the configurable
  header-derived tags whose keys are data. Likewise fixed log-event names
  (`Tracing::Logs::get().X`) become the inductive `LogName`.
- Times: `SystemTime` instants and `duration` offsets are modelled as `Nat`;
  `start_time + duration_cast(offset)` becomes `Nat` addition.
-/

namespace Tracing

/-- Traffic direction, `Tracing::OperationName`. -/
inductive OperationName
  | Ingress
  | Egress
deriving DecidableEq, Repr

/-- Reason for a trace decision, `Tracing::Reason`. -/
inductive Reason
  | ClientForced
  | ServiceForced
  | Sampling
  | HealthCheck
  | NotTraceableRequestId
deriving DecidableEq, Repr

/-- Trace decision value object, `Tracing::Decision`. -/
structure Decision where
  reason : Reason
  traced : Bool
deriving DecidableEq, Repr

/-- External classification of a request id string, `UuidTraceStatus`. -/
inductive UuidTraceStatus
  | Client
  | Forced
  | Sampled
  | NoTrace
deriving DecidableEq, Repr

/-- HTTP protocol version reported by the observability record. -/
inductive Protocol
  | Http10
  | Http11
  | Http2
deriving DecidableEq, Repr

/-- Selected upstream host; the code only reads its cluster name
(`stream_info.upstreamHost()->cluster().name()`). -/
structure HostDescription where
  clusterName : String
deriving DecidableEq, Repr

/-- Observability record (`StreamInfo::StreamInfo`), restricted to the
read-only accessors this translation unit uses, plus
`firstDownstreamRxByteReceived` which the spec's timing-mark list mentions
("first/last byte received downstream") but which the source never reads.
All timing marks are offsets from `startTime`. The `responseFlags` field
holds the short string `StreamInfo::ResponseFlagUtils::toShortString` would
produce; that encoding is an external contract and is treated as opaque. -/
structure StreamInfo where
  healthCheck : Bool
  responseCode : Option Nat
  bytesReceived : Nat
  bytesSent : Nat
  protocol : Option Protocol
  responseFlags : String
  upstreamHost : Option HostDescription
  startTime : Nat
  lastDownstreamRxByteReceived : Option Nat
  firstUpstreamTxByteSent : Option Nat
  lastUpstreamTxByteSent : Option Nat
  firstUpstreamRxByteReceived : Option Nat
  lastUpstreamRxByteReceived : Option Nat
  firstDownstreamTxByteSent : Option Nat
  lastDownstreamTxByteSent : Option Nat
  firstDownstreamRxByteReceived : Option Nat
deriving DecidableEq, Repr

/-- Request header map (`Http::HeaderMap`), restricted to the named
pseudo-accessors the source uses; `extra` carries any further headers,
reachable through the generic `get` lookup the custom-tag loop uses. -/
structure HeaderMap where
  requestId : Option String
  host : Option String
  path : Option String
  envoyOriginalPath : Option String
  forwardedProto : Option String
  method : Option String
  envoyDownstreamServiceCluster : Option String
  userAgent : Option String
  clientTraceId : Option String
  extra : List (String × String)
deriving DecidableEq, Repr

/-- Generic named-header lookup (`request_headers->get(header)`). -/
def HeaderMap.get (request_headers : HeaderMap) (name : String) : Option String :=
  (request_headers.extra.find? (fun p => p.1 == name)).map Prod.snd

/-- Tracing configuration (`Tracing::Config`): direction, verbose flag and
the ordered list of header names to mirror as tags. -/
structure Config where
  operationName : OperationName
  verbose : Bool
  requestHeadersForTags : List String
deriving DecidableEq, Repr

/-- Process-local identity (`LocalInfo::LocalInfo`), immutable. -/
structure LocalInfo where
  nodeName : String
  zoneName : String
deriving DecidableEq, Repr

/-- Fixed tag-key vocabulary (`Tracing::Tags::get().X`), modelled
symbolically; `custom name` is a configurable header-derived key. -/
inductive TagKey
  | GuidXRequestId
  | HttpUrl
  | HttpMethod
  | DownstreamCluster
  | UserAgent
  | HttpProtocol
  | GuidXClientTraceId
  | RequestSize
  | UpstreamCluster
  | HttpStatusCode
  | ResponseSize
  | ResponseFlags
  | Error
  | Component
  | NodeId
  | Zone
  | custom (name : String)
deriving DecidableEq, Repr

/-- Fixed log-event names (`Tracing::Logs::get().X`). The source emits the
first seven; `FirstDownstreamRxByteReceived` exists only so the spec's
mark list ("downstream-received-first-byte") is expressible. -/
inductive LogName
  | LastDownstreamRxByteReceived
  | FirstUpstreamTxByteSent
  | LastUpstreamTxByteSent
  | FirstUpstreamRxByteReceived
  | LastUpstreamRxByteReceived
  | FirstDownstreamTxByteSent
  | LastDownstreamTxByteSent
  | FirstDownstreamRxByteReceived
deriving DecidableEq, Repr

/-- One mutation performed on the borrowed external span. -/
inductive SpanOp
  | setTag (key : TagKey) (value : String)
  | log (timestamp : Nat) (name : LogName)
  | finish
deriving DecidableEq, Repr

/-- Key of a tag-write operation, if the operation is one. -/
def SpanOp.tagKey? : SpanOp → Option TagKey
  | SpanOp.setTag k _ => some k
  | _ => none

/-- Source lines 21-23: response code as a decimal string, "0" when absent. -/
def buildResponseCode (info : StreamInfo) : String :=
  match info.responseCode with
  | some c => toString c
  | none => "0"

/-- Source lines 25-27: header value or a default when the entry is absent. -/
def valueOrDefault (header : Option String) (default_value : String) : String :=
  header.getD default_value

/-- Source lines 29-40: synthesize the URL tag value. The source reads
`request_headers.Path()->value()` with no null check when the
original-path override is absent, so an absent path there is a fault,
modelled as `none`. -/
def buildUrl (request_headers : HeaderMap) : Option String :=
  match (match request_headers.envoyOriginalPath with
         | some p => some p
         | none => request_headers.path) with
  | none => none
  | some path =>
    let path := if 128 < path.length then path.take 128 else path
    some (valueOrDefault request_headers.forwardedProto "" ++ "://"
          ++ valueOrDefault request_headers.host "" ++ path)

/-- Source line 42. -/
def HttpTracerUtility.IngressOperation : String := "ingress"

/-- Source line 43. -/
def HttpTracerUtility.EgressOperation : String := "egress"

/-- Source lines 45-54: direction label. -/
def HttpTracerUtility.toString : OperationName → String
  | OperationName.Ingress => HttpTracerUtility.IngressOperation
  | OperationName.Egress => HttpTracerUtility.EgressOperation

/-- Source lines 56-83: the trace decision. The external UUID classifier
(`UuidUtils::isTraceableUuid`) is passed in as `classify`; it is consulted
only on the final branch, after the health-check and request-id-presence
short circuits. -/
def HttpTracerUtility.isTracing (classify : String → UuidTraceStatus)
    (stream_info : StreamInfo) (request_headers : HeaderMap) : Decision :=
  if stream_info.healthCheck then
    { reason := Reason.HealthCheck, traced := false }
  else
    match request_headers.requestId with
    | none => { reason := Reason.NotTraceableRequestId, traced := false }
    | some rid =>
      match classify rid with
      | UuidTraceStatus.Client => { reason := Reason.ClientForced, traced := true }
      | UuidTraceStatus.Forced => { reason := Reason.ServiceForced, traced := true }
      | UuidTraceStatus.Sampled => { reason := Reason.Sampling, traced := true }
      | UuidTraceStatus.NoTrace => { reason := Reason.NotTraceableRequestId, traced := false }

/-- One conditional log statement of `annotateVerbose`: emit a log event at
`start_time + offset` when the mark is present, nothing when absent. -/
def optLog (start_time : Nat) (mark : Option Nat) (name : LogName) : List SpanOp :=
  match mark with
  | some d => [SpanOp.log (start_time + d) name]
  | none => []

/-- Source lines 85-122: the seven conditional timestamped log events, in
source order. -/
def annotateVerbose (stream_info : StreamInfo) : List SpanOp :=
  optLog stream_info.startTime stream_info.lastDownstreamRxByteReceived
    LogName.LastDownstreamRxByteReceived
  ++ optLog stream_info.startTime stream_info.firstUpstreamTxByteSent
    LogName.FirstUpstreamTxByteSent
  ++ optLog stream_info.startTime stream_info.lastUpstreamTxByteSent
    LogName.LastUpstreamTxByteSent
  ++ optLog stream_info.startTime stream_info.firstUpstreamRxByteReceived
    LogName.FirstUpstreamRxByteReceived
  ++ optLog stream_info.startTime stream_info.lastUpstreamRxByteReceived
    LogName.LastUpstreamRxByteReceived
  ++ optLog stream_info.startTime stream_info.firstDownstreamTxByteSent
    LogName.FirstDownstreamTxByteSent
  ++ optLog stream_info.startTime stream_info.lastDownstreamTxByteSent
    LogName.LastDownstreamTxByteSent

/-- Modelled from the spec: the protocol tag value, "the request's protocol
version rendered as its canonical string form"
(`AccessLog::AccessLogFormatUtils::protocolToString`, whose definition is
outside this translation unit). -/
def protocolToString (p : Option Protocol) : String :=
  match p with
  | some Protocol.Http10 => "HTTP/1.0"
  | some Protocol.Http11 => "HTTP/1.1"
  | some Protocol.Http2 => "HTTP/2"
  | none => "-"

/-- Source lines 129-132: the request-id tag, present headers only. -/
def reqIdOps (request_headers : HeaderMap) : List SpanOp :=
  match request_headers.requestId with
  | some v => [SpanOp.setTag TagKey.GuidXRequestId v]
  | none => []

/-- Source lines 141-144: the client-trace-id tag, present headers only. -/
def clientTraceOps (request_headers : HeaderMap) : List SpanOp :=
  match request_headers.clientTraceId with
  | some v => [SpanOp.setTag TagKey.GuidXClientTraceId v]
  | none => []

/-- Source lines 146-152: one tag per configured header name that is present
on the request, keyed by the header name itself. -/
def customOps (request_headers : HeaderMap) : List String → List SpanOp
  | [] => []
  | name :: rest =>
    (match request_headers.get name with
     | some v => [SpanOp.setTag (TagKey.custom name) v]
     | none => []) ++ customOps request_headers rest

/-- Source lines 128-153: the pre-response block of `finalizeSpan`, run only
when request headers are present. The source dereferences
`request_headers->Method()` (line 134) and, inside `buildUrl`,
`request_headers.Path()` with no null check; either entry being absent is a
fault, modelled as `none`. -/
def preResponseOps (request_headers : HeaderMap) (stream_info : StreamInfo)
    (tracing_config : Config) : Option (List SpanOp) :=
  match buildUrl request_headers, request_headers.method with
  | some url, some m =>
    some (reqIdOps request_headers
      ++ [SpanOp.setTag TagKey.HttpUrl url,
          SpanOp.setTag TagKey.HttpMethod m,
          SpanOp.setTag TagKey.DownstreamCluster
            (valueOrDefault request_headers.envoyDownstreamServiceCluster "-"),
          SpanOp.setTag TagKey.UserAgent (valueOrDefault request_headers.userAgent "-"),
          SpanOp.setTag TagKey.HttpProtocol (protocolToString stream_info.protocol)]
      ++ clientTraceOps request_headers
      ++ customOps request_headers tracing_config.requestHeadersForTags)
  | _, _ => none

/-- Source lines 154-164: the unconditional tags (request size, optional
upstream cluster, status code, response size, response flags). -/
def alwaysOps (stream_info : StreamInfo) : List SpanOp :=
  [SpanOp.setTag TagKey.RequestSize (toString stream_info.bytesReceived)]
  ++ (match stream_info.upstreamHost with
      | some host => [SpanOp.setTag TagKey.UpstreamCluster host.clusterName]
      | none => [])
  ++ [SpanOp.setTag TagKey.HttpStatusCode (buildResponseCode stream_info),
      SpanOp.setTag TagKey.ResponseSize (toString stream_info.bytesSent),
      SpanOp.setTag TagKey.ResponseFlags stream_info.responseFlags]

/-- Modelled from the spec: the server-error class test
(`Http::CodeUtility::is5xx`, defined outside this translation unit) —
"the recorded code is a server-error class (5xx)". -/
def is5xx (code : Nat) : Bool :=
  500 ≤ code && code < 600

/-- Source lines 170-172: the error tag, written when no response code was
recorded or the recorded code is 5xx; its value is the fixed "true" marker
(`Tracing::Tags::get().True`). -/
def errorOps (stream_info : StreamInfo) : List SpanOp :=
  match stream_info.responseCode with
  | none => [SpanOp.setTag TagKey.Error "true"]
  | some c => if is5xx c then [SpanOp.setTag TagKey.Error "true"] else []

/-- Source lines 154-172: everything `finalizeSpan` does after the
pre-response block: unconditional tags, optional verbose log events,
optional error tag, in source order. -/
def postOps (stream_info : StreamInfo) (tracing_config : Config) : List SpanOp :=
  alwaysOps stream_info
  ++ (if tracing_config.verbose then annotateVerbose stream_info else [])
  ++ errorOps stream_info

/-- Source lines 124-175: the whole of `finalizeSpan` as the sequence of
span operations it performs. `none` models the fault reached when the
pre-response block dereferences an absent Path (with no original-path
override) or an absent Method; on that path `span.finishSpan()` is never
reached. -/
def HttpTracerUtility.finalizeSpan (request_headers : Option HeaderMap)
    (stream_info : StreamInfo) (tracing_config : Config) : Option (List SpanOp) :=
  match request_headers with
  | none => some (postOps stream_info tracing_config ++ [SpanOp.finish])
  | some h =>
    match preResponseOps h stream_info tracing_config with
    | none => none
    | some pre => some (pre ++ postOps stream_info tracing_config ++ [SpanOp.finish])

/-- Source lines 192-196: the three identity tags stamped on a span when the
driver returns one; `none` when the driver declines (the normal untraced
path). The driver is abstracted as a predicate saying whether it returns a
span for the given call. -/
def startSpanTags (driver : Config → HeaderMap → String → Nat → Decision → Bool)
    (local_info : LocalInfo) (config : Config) (request_headers : HeaderMap)
    (stream_info : StreamInfo) (tracing_decision : Decision) (span_name : String) :
    Option (List SpanOp) :=
  if driver config request_headers span_name stream_info.startTime tracing_decision then
    some [SpanOp.setTag TagKey.Component "proxy",
          SpanOp.setTag TagKey.NodeId local_info.nodeName,
          SpanOp.setTag TagKey.Zone local_info.zoneName]
  else
    none

/-- Source lines 180-199: `startSpan`. Returns the span name passed to the
driver together with the tag operations performed on the returned span
(`none` inside when the driver declined). The outer `none` models the fault
reached when the direction is Egress and the Host header is absent
(`request_headers.Host()->value()`, line 187, with no null check). -/
def HttpTracerImpl.startSpan (driver : Config → HeaderMap → String → Nat → Decision → Bool)
    (local_info : LocalInfo) (config : Config) (request_headers : HeaderMap)
    (stream_info : StreamInfo) (tracing_decision : Decision) :
    Option (String × Option (List SpanOp)) :=
  match config.operationName, request_headers.host with
  | OperationName.Egress, none => none
  | OperationName.Egress, some host =>
    let span_name := HttpTracerUtility.toString OperationName.Egress ++ " " ++ host
    some (span_name,
      startSpanTags driver local_info config request_headers stream_info tracing_decision span_name)
  | OperationName.Ingress, _ =>
    let span_name := HttpTracerUtility.toString OperationName.Ingress
    some (span_name,
      startSpanTags driver local_info config request_headers stream_info tracing_decision span_name)

/-- Spec-side mapping from a UUID trace status to the decision the spec
prescribes: Client → ClientForced/traced, Forced → ServiceForced/traced,
Sampled → Sampling/traced, NoTrace → NotTraceableRequestId/untraced. -/
def uuidDecision : UuidTraceStatus → Decision
  | UuidTraceStatus.Client => { reason := Reason.ClientForced, traced := true }
  | UuidTraceStatus.Forced => { reason := Reason.ServiceForced, traced := true }
  | UuidTraceStatus.Sampled => { reason := Reason.Sampling, traced := true }
  | UuidTraceStatus.NoTrace => { reason := Reason.NotTraceableRequestId, traced := false }

/-- Timestamped log events of an operation sequence, in order. -/
def logEvents (ops : List SpanOp) : List (Nat × LogName) :=
  ops.filterMap fun op =>
    match op with
    | SpanOp.log t n => some (t, n)
    | _ => none

/-- Tag keys written by an operation sequence, in order. -/
def tagKeys (ops : List SpanOp) : List TagKey :=
  ops.filterMap SpanOp.tagKey?

/-- Spec-side ordered mark list for verbose logging, exactly as the spec
words it: downstream-received-FIRST-byte first, then the upstream and
downstream send/receive marks. -/
def specVerboseMarks (stream_info : StreamInfo) : List (Option Nat × LogName) :=
  [(stream_info.firstDownstreamRxByteReceived, LogName.FirstDownstreamRxByteReceived),
   (stream_info.firstUpstreamTxByteSent, LogName.FirstUpstreamTxByteSent),
   (stream_info.lastUpstreamTxByteSent, LogName.LastUpstreamTxByteSent),
   (stream_info.firstUpstreamRxByteReceived, LogName.FirstUpstreamRxByteReceived),
   (stream_info.lastUpstreamRxByteReceived, LogName.LastUpstreamRxByteReceived),
   (stream_info.firstDownstreamTxByteSent, LogName.FirstDownstreamTxByteSent),
   (stream_info.lastDownstreamTxByteSent, LogName.LastDownstreamTxByteSent)]

/-- Spec-side verbose log sequence: each present mark of `specVerboseMarks`,
in that fixed order, timestamped start-time + offset; absent marks skipped. -/
def specVerboseLogs (stream_info : StreamInfo) : List (Nat × LogName) :=
  (specVerboseMarks stream_info).filterMap fun p =>
    match p.1 with
    | some d => some (stream_info.startTime + d, p.2)
    | none => none

/-- Amended spec-side mark list: identical to `specVerboseMarks` except the
first mark is downstream-received-LAST-byte, the mark the source actually
logs first. -/
def specVerboseMarksAmended (stream_info : StreamInfo) : List (Option Nat × LogName) :=
  [(stream_info.lastDownstreamRxByteReceived, LogName.LastDownstreamRxByteReceived),
   (stream_info.firstUpstreamTxByteSent, LogName.FirstUpstreamTxByteSent),
   (stream_info.lastUpstreamTxByteSent, LogName.LastUpstreamTxByteSent),
   (stream_info.firstUpstreamRxByteReceived, LogName.FirstUpstreamRxByteReceived),
   (stream_info.lastUpstreamRxByteReceived, LogName.LastUpstreamRxByteReceived),
   (stream_info.firstDownstreamTxByteSent, LogName.FirstDownstreamTxByteSent),
   (stream_info.lastDownstreamTxByteSent, LogName.LastDownstreamTxByteSent)]

/-- Amended spec-side verbose log sequence. -/
def specVerboseLogsAmended (stream_info : StreamInfo) : List (Nat × LogName) :=
  (specVerboseMarksAmended stream_info).filterMap fun p =>
    match p.1 with
    | some d => some (stream_info.startTime + d, p.2)
    | none => none

/-! ### Concrete instances used by witnesses and counterexamples -/

/-- Header map with every named entry present. -/
def hmFull : HeaderMap :=
  { requestId := some "rid", host := some "h", path := some "/p",
    envoyOriginalPath := none, forwardedProto := some "https", method := some "GET",
    envoyDownstreamServiceCluster := some "dc", userAgent := some "ua",
    clientTraceId := some "ct", extra := [] }

/-- Header map with no entry present. -/
def hmEmpty : HeaderMap :=
  { requestId := none, host := none, path := none,
    envoyOriginalPath := none, forwardedProto := none, method := none,
    envoyDownstreamServiceCluster := none, userAgent := none,
    clientTraceId := none, extra := [] }

/-- Observability record with all timing marks present. -/
def siBase : StreamInfo :=
  { healthCheck := false, responseCode := some 200, bytesReceived := 10,
    bytesSent := 20, protocol := some Protocol.Http11, responseFlags := "-",
    upstreamHost := some { clusterName := "cl" }, startTime := 100,
    lastDownstreamRxByteReceived := some 1, firstUpstreamTxByteSent := some 2,
    lastUpstreamTxByteSent := some 3, firstUpstreamRxByteReceived := some 4,
    lastUpstreamRxByteReceived := some 5, firstDownstreamTxByteSent := some 6,
    lastDownstreamTxByteSent := some 7, firstDownstreamRxByteReceived := none }

/-- Observability record whose only present timing mark is the
downstream-received-last-byte mark, the one the source logs first. -/
def siLastRxOnly : StreamInfo :=
  { healthCheck := false, responseCode := some 200, bytesReceived := 10,
    bytesSent := 20, protocol := some Protocol.Http11, responseFlags := "-",
    upstreamHost := none, startTime := 100,
    lastDownstreamRxByteReceived := some 5, firstUpstreamTxByteSent := none,
    lastUpstreamTxByteSent := none, firstUpstreamRxByteReceived := none,
    lastUpstreamRxByteReceived := none, firstDownstreamTxByteSent := none,
    lastDownstreamTxByteSent := none, firstDownstreamRxByteReceived := none }

/-- Health-check record. -/
def siHealth : StreamInfo :=
  { siBase with healthCheck := true }

/-- Verbose egress configuration, no custom header tags. -/
def cfgVerbose : Config :=
  { operationName := OperationName.Egress, verbose := true, requestHeadersForTags := [] }

/-- Non-verbose ingress configuration, no custom header tags. -/
def cfgPlain : Config :=
  { operationName := OperationName.Ingress, verbose := false, requestHeadersForTags := [] }

/-- A classifier constant used by witnesses. -/
def classifySampled : String → UuidTraceStatus := fun _ => UuidTraceStatus.Sampled

/-- A driver that always returns a span. -/
def driverYes : Config → HeaderMap → String → Nat → Decision → Bool :=
  fun _ _ _ _ _ => true

/-- A driver that always declines. -/
def driverNo : Config → HeaderMap → String → Nat → Decision → Bool :=
  fun _ _ _ _ _ => false

/-- Local identity used by witnesses. -/
def liTest : LocalInfo := { nodeName := "node-1", zoneName := "zone-a" }

/-! ### C1 — trace decision precedence -/

/-- C1: the trace decision follows the exact precedence of the source: a set
health-check flag yields {HealthCheck, false}; otherwise an absent request-id
header yields {NotTraceableRequestId, false}; otherwise the classifier's
result is mapped per `uuidDecision`. In the first two branches the result
does not depend on the classifier at all (the classifier is never called). -/
theorem isTracing_precedence (classify : String → UuidTraceStatus)
    (stream_info : StreamInfo) (request_headers : HeaderMap) :
    (stream_info.healthCheck = true →
      HttpTracerUtility.isTracing classify stream_info request_headers
        = { reason := Reason.HealthCheck, traced := false }) ∧
    (stream_info.healthCheck = false → request_headers.requestId = none →
      HttpTracerUtility.isTracing classify stream_info request_headers
        = { reason := Reason.NotTraceableRequestId, traced := false }) ∧
    (∀ rid, stream_info.healthCheck = false → request_headers.requestId = some rid →
      HttpTracerUtility.isTracing classify stream_info request_headers
        = uuidDecision (classify rid)) ∧
    ((stream_info.healthCheck = true ∨ request_headers.requestId = none) →
      ∀ classify2, HttpTracerUtility.isTracing classify stream_info request_headers
        = HttpTracerUtility.isTracing classify2 stream_info request_headers) := by
  refine ⟨?_, ?_, ?_, ?_⟩
  · intro hhc
    simp [HttpTracerUtility.isTracing, hhc]
  · intro hhc hrid
    simp [HttpTracerUtility.isTracing, hhc, hrid]
  · intro rid hhc hrid
    simp only [HttpTracerUtility.isTracing, hhc, hrid, Bool.false_eq_true, if_false]
    cases classify rid <;> rfl
  · intro hshort classify2
    rcases hshort with hhc | hrid
    · simp [HttpTracerUtility.isTracing, hhc]
    · by_cases hhc : stream_info.healthCheck <;>
        simp [HttpTracerUtility.isTracing, hhc, hrid]

/-- Witness for C1 at concrete inputs: the health-check branch and the
classifier branch. -/
theorem isTracing_precedence_witness :
    HttpTracerUtility.isTracing classifySampled siHealth hmFull
      = { reason := Reason.HealthCheck, traced := false } ∧
    HttpTracerUtility.isTracing classifySampled siBase hmFull
      = { reason := Reason.Sampling, traced := true } :=
  ⟨(isTracing_precedence classifySampled siHealth hmFull).1 rfl,
   (isTracing_precedence classifySampled siBase hmFull).2.2.1 "rid" rfl rfl⟩

/-! ### C6 — span naming -/

/-- C6: the span name handed to the driver is exactly "ingress" for an
Ingress configuration, and exactly "egress " followed by the Host header
value for an Egress configuration. -/
theorem startSpan_name (driver : Config → HeaderMap → String → Nat → Decision → Bool)
    (local_info : LocalInfo) (config : Config) (request_headers : HeaderMap)
    (stream_info : StreamInfo) (tracing_decision : Decision) :
    (config.operationName = OperationName.Ingress →
      ∃ r, HttpTracerImpl.startSpan driver local_info config request_headers
            stream_info tracing_decision = some r ∧ r.1 = "ingress") ∧
    (∀ host, config.operationName = OperationName.Egress → request_headers.host = some host →
      ∃ r, HttpTracerImpl.startSpan driver local_info config request_headers
            stream_info tracing_decision = some r ∧ r.1 = "egress " ++ host) := by
  constructor
  · intro hop
    refine ⟨(HttpTracerUtility.toString OperationName.Ingress,
             startSpanTags driver local_info config request_headers stream_info tracing_decision
               (HttpTracerUtility.toString OperationName.Ingress)), ?_, rfl⟩
    simp [HttpTracerImpl.startSpan, hop]
  · intro host hop hhost
    refine ⟨(HttpTracerUtility.toString OperationName.Egress ++ " " ++ host,
             startSpanTags driver local_info config request_headers stream_info tracing_decision
               (HttpTracerUtility.toString OperationName.Egress ++ " " ++ host)), ?_, ?_⟩
    · simp [HttpTracerImpl.startSpan, hop, hhost]
    · rfl

/-- Witness for C6: concrete ingress and egress names. -/
theorem startSpan_name_witness :
    (∃ r, HttpTracerImpl.startSpan driverYes liTest cfgPlain hmEmpty siBase
            { reason := Reason.Sampling, traced := true } = some r ∧ r.1 = "ingress") ∧
    (∃ r, HttpTracerImpl.startSpan driverYes liTest cfgVerbose hmFull siBase
            { reason := Reason.Sampling, traced := true } = some r ∧ r.1 = "egress " ++ "h") :=
  ⟨(startSpan_name driverYes liTest cfgPlain hmEmpty siBase
      { reason := Reason.Sampling, traced := true }).1 rfl,
   (startSpan_name driverYes liTest cfgVerbose hmFull siBase
      { reason := Reason.Sampling, traced := true }).2 "h" rfl rfl⟩

/-! ### C7 — identity tags on a created span -/

/-- C7: when the driver returns a span, exactly the three identity tags
(component "proxy", node id, zone) are set on it, independent of any request
content; when the driver declines, no tag is set and the absent span is the
normal outcome of `startSpan`, not a fault. -/
theorem startSpan_identity_tags (driver : Config → HeaderMap → String → Nat → Decision → Bool)
    (local_info : LocalInfo) (config : Config) (request_headers : HeaderMap)
    (stream_info : StreamInfo) (tracing_decision : Decision)
    (name : String) (spanOps : Option (List SpanOp))
    (hres : HttpTracerImpl.startSpan driver local_info config request_headers
              stream_info tracing_decision = some (name, spanOps)) :
    (driver config request_headers name stream_info.startTime tracing_decision = true →
      spanOps = some [SpanOp.setTag TagKey.Component "proxy",
                      SpanOp.setTag TagKey.NodeId local_info.nodeName,
                      SpanOp.setTag TagKey.Zone local_info.zoneName]) ∧
    (driver config request_headers name stream_info.startTime tracing_decision = false →
      spanOps = none) := by
  have hsp : spanOps = startSpanTags driver local_info config request_headers
      stream_info tracing_decision name := by
    revert hres
    unfold HttpTracerImpl.startSpan
    cases hop : config.operationName <;> cases hhost : request_headers.host <;>
      intro hres <;> simp at hres <;> rcases hres with ⟨hname, hops⟩ <;>
      subst hname <;> exact hops.symm
  subst hsp
  constructor
  · intro hd
    simp [startSpanTags, hd]
  · intro hd
    simp [startSpanTags, hd]

/-- Witness for C7: a driver that creates a span yields exactly the three
identity tags; a driver that declines yields no tags. -/
theorem startSpan_identity_tags_witness :
    startSpanTags driverYes liTest cfgPlain hmEmpty siBase
        { reason := Reason.Sampling, traced := true } "ingress"
      = some [SpanOp.setTag TagKey.Component "proxy",
              SpanOp.setTag TagKey.NodeId liTest.nodeName,
              SpanOp.setTag TagKey.Zone liTest.zoneName] ∧
    startSpanTags driverNo liTest cfgPlain hmEmpty siBase
        { reason := Reason.Sampling, traced := true } "ingress" = none :=
  ⟨(startSpan_identity_tags driverYes liTest cfgPlain hmEmpty siBase
      { reason := Reason.Sampling, traced := true } "ingress" _ rfl).1 rfl,
   (startSpan_identity_tags driverNo liTest cfgPlain hmEmpty siBase
      { reason := Reason.Sampling, traced := true } "ingress" _ rfl).2 rfl⟩

/-! ### C10 — Host-header precondition of egress span naming -/

/-- C10: egress span naming dereferences the Host header unconditionally, so
an egress request without a Host header reaches the fault (`none`); with a
Host header present, or for Ingress (no precondition), `startSpan` always
returns normally. -/
theorem startSpan_host_precondition (driver : Config → HeaderMap → String → Nat → Decision → Bool)
    (local_info : LocalInfo) (config : Config) (request_headers : HeaderMap)
    (stream_info : StreamInfo) (tracing_decision : Decision) :
    (config.operationName = OperationName.Egress → request_headers.host = none →
      HttpTracerImpl.startSpan driver local_info config request_headers
        stream_info tracing_decision = none) ∧
    (config.operationName = OperationName.Ingress →
      (HttpTracerImpl.startSpan driver local_info config request_headers
        stream_info tracing_decision).isSome = true) ∧
    (config.operationName = OperationName.Egress → request_headers.host.isSome = true →
      (HttpTracerImpl.startSpan driver local_info config request_headers
        stream_info tracing_decision).isSome = true) := by
  refine ⟨?_, ?_, ?_⟩
  · intro hop hhost
    simp [HttpTracerImpl.startSpan, hop, hhost]
  · intro hop
    simp [HttpTracerImpl.startSpan, hop]
  · intro hop hhost
    rcases Option.isSome_iff_exists.mp hhost with ⟨host, hh⟩
    simp [HttpTracerImpl.startSpan, hop, hh]

/-- Witness for C10: an egress request without a Host header faults; with a
Host header, and for ingress, `startSpan` returns normally. -/
theorem startSpan_host_precondition_witness :
    HttpTracerImpl.startSpan driverYes liTest cfgVerbose hmEmpty siBase
      { reason := Reason.Sampling, traced := true } = none ∧
    (HttpTracerImpl.startSpan driverYes liTest cfgVerbose hmFull siBase
      { reason := Reason.Sampling, traced := true }).isSome = true ∧
    (HttpTracerImpl.startSpan driverYes liTest cfgPlain hmEmpty siBase
      { reason := Reason.Sampling, traced := true }).isSome = true :=
  ⟨(startSpan_host_precondition driverYes liTest cfgVerbose hmEmpty siBase
      { reason := Reason.Sampling, traced := true }).1 rfl rfl,
   (startSpan_host_precondition driverYes liTest cfgVerbose hmFull siBase
      { reason := Reason.Sampling, traced := true }).2.2 rfl rfl,
   (startSpan_host_precondition driverYes liTest cfgPlain hmEmpty siBase
      { reason := Reason.Sampling, traced := true }).2.1 rfl⟩

/-! ### Structural lemmas about the finalization segments -/

lemma logEvents_append (a b : List SpanOp) :
    logEvents (a ++ b) = logEvents a ++ logEvents b := by
  simp [logEvents]

lemma tagKeys_append (a b : List SpanOp) :
    tagKeys (a ++ b) = tagKeys a ++ tagKeys b := by
  simp [tagKeys]

lemma mem_optLog {t : Nat} {o : Option Nat} {n : LogName} {op : SpanOp}
    (hm : op ∈ optLog t o n) : ∃ d, o = some d ∧ op = SpanOp.log (t + d) n := by
  revert hm
  cases ho : o with
  | none => intro hm; simp [optLog] at hm
  | some d => intro hm; simp [optLog] at hm; exact ⟨d, rfl, hm⟩

lemma isLog_of_mem_annotateVerbose {si : StreamInfo} {op : SpanOp}
    (hm : op ∈ annotateVerbose si) : ∃ t n, op = SpanOp.log t n := by
  simp only [annotateVerbose, List.mem_append] at hm
  rcases hm with ((((((h | h) | h) | h) | h) | h) | h) <;>
    (obtain ⟨d, hd, rfl⟩ := mem_optLog h; exact ⟨_, _, rfl⟩)

lemma tagKey_of_mem_alwaysOps {si : StreamInfo} {op : SpanOp} (hm : op ∈ alwaysOps si) :
    op.tagKey? = some TagKey.RequestSize ∨ op.tagKey? = some TagKey.UpstreamCluster ∨
    op.tagKey? = some TagKey.HttpStatusCode ∨ op.tagKey? = some TagKey.ResponseSize ∨
    op.tagKey? = some TagKey.ResponseFlags := by
  revert hm
  cases hu : si.upstreamHost with
  | none =>
    intro hm
    simp [alwaysOps, hu] at hm
    rcases hm with h | h | h | h <;> subst h <;> simp [SpanOp.tagKey?]
  | some host =>
    intro hm
    simp [alwaysOps, hu] at hm
    rcases hm with h | h | h | h | h <;> subst h <;> simp [SpanOp.tagKey?]

lemma eq_errorTag_of_mem_errorOps {si : StreamInfo} {op : SpanOp} (hm : op ∈ errorOps si) :
    op = SpanOp.setTag TagKey.Error "true" := by
  revert hm
  cases hrc : si.responseCode with
  | none => intro hm; simpa [errorOps, hrc] using hm
  | some c =>
    by_cases h5 : is5xx c
    · intro hm; simpa [errorOps, hrc, h5] using hm
    · intro hm; simp [errorOps, hrc, h5] at hm

lemma mem_reqIdOps {h : HeaderMap} {op : SpanOp} (hm : op ∈ reqIdOps h) :
    ∃ v, h.requestId = some v ∧ op = SpanOp.setTag TagKey.GuidXRequestId v := by
  revert hm
  cases hr : h.requestId with
  | none => intro hm; simp [reqIdOps, hr] at hm
  | some v => intro hm; simp [reqIdOps, hr] at hm; exact ⟨v, rfl, hm⟩

lemma mem_clientTraceOps {h : HeaderMap} {op : SpanOp} (hm : op ∈ clientTraceOps h) :
    ∃ v, h.clientTraceId = some v ∧ op = SpanOp.setTag TagKey.GuidXClientTraceId v := by
  revert hm
  cases hr : h.clientTraceId with
  | none => intro hm; simp [clientTraceOps, hr] at hm
  | some v => intro hm; simp [clientTraceOps, hr] at hm; exact ⟨v, rfl, hm⟩

lemma mem_customOps {h : HeaderMap} {op : SpanOp} :
    ∀ {names : List String}, op ∈ customOps h names →
      ∃ n v, h.get n = some v ∧ op = SpanOp.setTag (TagKey.custom n) v := by
  intro names
  induction names with
  | nil => intro hm; simp [customOps] at hm
  | cons n rest ih =>
    intro hm
    simp only [customOps, List.mem_append] at hm
    rcases hm with hm1 | hm2
    · revert hm1
      cases hg : h.get n with
      | none => intro hm1; simp at hm1
      | some v => intro hm1; simp at hm1; exact ⟨n, v, hg, hm1⟩
    · exact ih hm2

lemma buildUrl_eq {h : HeaderMap} {url : String} (hb : buildUrl h = some url) :
    ∃ p, (match h.envoyOriginalPath with | some q => some q | none => h.path) = some p ∧
      url = valueOrDefault h.forwardedProto "" ++ "://" ++ valueOrDefault h.host ""
            ++ (if 128 < p.length then p.take 128 else p) := by
  revert hb
  unfold buildUrl
  cases hsel : (match h.envoyOriginalPath with | some q => some q | none => h.path) with
  | none => intro hb; simp at hb
  | some p => intro hb; injection hb with hb; exact ⟨p, rfl, hb.symm⟩

lemma preResponseOps_eq {h : HeaderMap} {si : StreamInfo} {cfg : Config} {pre : List SpanOp}
    (hpre : preResponseOps h si cfg = some pre) :
    ∃ url m, buildUrl h = some url ∧ h.method = some m ∧
      pre = reqIdOps h
        ++ ([SpanOp.setTag TagKey.HttpUrl url, SpanOp.setTag TagKey.HttpMethod m,
             SpanOp.setTag TagKey.DownstreamCluster
               (valueOrDefault h.envoyDownstreamServiceCluster "-"),
             SpanOp.setTag TagKey.UserAgent (valueOrDefault h.userAgent "-"),
             SpanOp.setTag TagKey.HttpProtocol (protocolToString si.protocol)]
            ++ (clientTraceOps h ++ customOps h cfg.requestHeadersForTags)) := by
  revert hpre
  unfold preResponseOps
  cases hbu : buildUrl h with
  | none => intro hpre; simp at hpre
  | some url =>
    cases hme : h.method with
    | none => intro hpre; simp at hpre
    | some m =>
      intro hpre
      injection hpre with hpre
      exact ⟨url, m, rfl, rfl, by rw [← hpre]; simp⟩

lemma finalizeSpan_eq_some {h? : Option HeaderMap} {si : StreamInfo} {cfg : Config}
    {ops : List SpanOp}
    (hops : HttpTracerUtility.finalizeSpan h? si cfg = some ops) :
    (h? = none ∧ ops = postOps si cfg ++ [SpanOp.finish]) ∨
    (∃ h pre, h? = some h ∧ preResponseOps h si cfg = some pre ∧
      ops = pre ++ (postOps si cfg ++ [SpanOp.finish])) := by
  revert hops
  cases h? with
  | none =>
    intro hops
    simp only [HttpTracerUtility.finalizeSpan] at hops
    injection hops with hops
    exact Or.inl ⟨rfl, hops.symm⟩
  | some h =>
    cases hpre : preResponseOps h si cfg with
    | none => intro hops; simp [HttpTracerUtility.finalizeSpan, hpre] at hops
    | some pre =>
      intro hops
      simp only [HttpTracerUtility.finalizeSpan, hpre] at hops
      injection hops with hops
      exact Or.inr ⟨h, pre, rfl, hpre, by rw [← hops]; simp⟩

lemma mem_postOps {si : StreamInfo} {cfg : Config} {op : SpanOp} (hm : op ∈ postOps si cfg) :
    (∃ t n, op = SpanOp.log t n) ∨
    op = SpanOp.setTag TagKey.Error "true" ∨
    op.tagKey? = some TagKey.RequestSize ∨ op.tagKey? = some TagKey.UpstreamCluster ∨
    op.tagKey? = some TagKey.HttpStatusCode ∨ op.tagKey? = some TagKey.ResponseSize ∨
    op.tagKey? = some TagKey.ResponseFlags := by
  simp only [postOps, List.mem_append] at hm
  rcases hm with (h | h) | h
  · have := tagKey_of_mem_alwaysOps h
    tauto
  · split at h
    · exact Or.inl (isLog_of_mem_annotateVerbose h)
    · simp at h
  · exact Or.inr (Or.inl (eq_errorTag_of_mem_errorOps h))

lemma logEvents_reqIdOps (h : HeaderMap) : logEvents (reqIdOps h) = [] := by
  cases hr : h.requestId <;> simp [reqIdOps, hr, logEvents]

lemma logEvents_clientTraceOps (h : HeaderMap) : logEvents (clientTraceOps h) = [] := by
  cases hr : h.clientTraceId <;> simp [clientTraceOps, hr, logEvents]

lemma logEvents_customOps (h : HeaderMap) :
    ∀ names, logEvents (customOps h names) = [] := by
  intro names
  induction names with
  | nil => rfl
  | cons n rest ih =>
    cases hg : h.get n <;>
      simp only [customOps, hg, logEvents_append, ih] <;> rfl

lemma logEvents_preResponseOps {h : HeaderMap} {si : StreamInfo} {cfg : Config}
    {pre : List SpanOp} (hpre : preResponseOps h si cfg = some pre) :
    logEvents pre = [] := by
  obtain ⟨url, m, -, -, rfl⟩ := preResponseOps_eq hpre
  simp only [logEvents_append, logEvents_reqIdOps, logEvents_clientTraceOps,
             logEvents_customOps]
  rfl

lemma logEvents_alwaysOps (si : StreamInfo) : logEvents (alwaysOps si) = [] := by
  cases hu : si.upstreamHost <;> simp only [alwaysOps, hu] <;> rfl

lemma logEvents_errorOps (si : StreamInfo) : logEvents (errorOps si) = [] := by
  cases hrc : si.responseCode with
  | none => simp only [errorOps, hrc]; rfl
  | some c =>
    by_cases h5 : is5xx c <;> simp only [errorOps, hrc, h5] <;>
      simp [logEvents]

lemma logEvents_postOps {si : StreamInfo} {cfg : Config} (hv : cfg.verbose = true) :
    logEvents (postOps si cfg) = logEvents (annotateVerbose si) := by
  unfold postOps
  rw [hv, logEvents_append, logEvents_append, logEvents_alwaysOps, logEvents_errorOps]
  simp

lemma logEvents_annotateVerbose (si : StreamInfo) :
    logEvents (annotateVerbose si) = specVerboseLogsAmended si := by
  rcases si with ⟨hc, rc, br, bs, pr, rf, uh, st, n1, n2, n3, n4, n5, n6, n7, n8⟩
  cases n1 <;> cases n2 <;> cases n3 <;> cases n4 <;> cases n5 <;> cases n6 <;>
    cases n7 <;> rfl

/-! ### C2 — verbose log events: counterexample, amended claim -/

/-- C2 counterexample: on a record whose only present mark is the
downstream-received-last-byte mark, the source logs that one event while the
spec's list (whose first entry is downstream-received-FIRST-byte and which
nowhere contains the last-byte downstream-receive mark) yields no event, so
the finalization logs are not the spec's list. -/
theorem verbose_logs_counterexample :
    (HttpTracerUtility.finalizeSpan none siLastRxOnly cfgVerbose).map logEvents
      ≠ some (specVerboseLogs siLastRxOnly) := by
  decide

/-- C2 (amended): when verbose mode is on, the log events appended during
finalization are exactly those whose timing marks are present, timestamped
start-time plus offset, in the fixed order downstream-received-last-byte,
upstream-sent-first-byte, upstream-sent-last-byte, upstream-received-first-byte,
upstream-received-last-byte, downstream-sent-first-byte,
downstream-sent-last-byte; absent marks are skipped without error. -/
theorem verbose_logs_amended (request_headers : Option HeaderMap) (stream_info : StreamInfo)
    (tracing_config : Config) (ops : List SpanOp)
    (hv : tracing_config.verbose = true)
    (hops : HttpTracerUtility.finalizeSpan request_headers stream_info tracing_config
      = some ops) :
    logEvents ops = specVerboseLogsAmended stream_info := by
  rcases finalizeSpan_eq_some hops with ⟨-, rfl⟩ | ⟨h, pre, -, hpre, rfl⟩
  · rw [logEvents_append, logEvents_postOps hv, logEvents_annotateVerbose]
    simp [logEvents]
  · rw [logEvents_append, logEvents_append, logEvents_preResponseOps hpre,
        logEvents_postOps hv, logEvents_annotateVerbose]
    simp [logEvents]

/-- Witness for the amended C2 at a record with all marks present. -/
theorem verbose_logs_amended_witness :
    logEvents ((HttpTracerUtility.finalizeSpan (some hmFull) siBase cfgVerbose).getD [])
      = specVerboseLogsAmended siBase :=
  verbose_logs_amended (some hmFull) siBase cfgVerbose _ rfl rfl

/-! ### C3 — absence safety of finalize: counterexample, amended claim -/

/-- C3 counterexample: with every header present except Path (and no
original-path override), finalize reaches the fault state — absence of the
Path header is not handled by omission or placeholder. -/
theorem finalize_absent_path_counterexample :
    HttpTracerUtility.finalizeSpan (some { hmFull with path := none }) siBase cfgPlain
      = none := by
  rfl

/-- C3 (amended): finalize handles every absence condition by omission or
placeholder and reaches no error state, provided the Path header (or the
original-path override) and the Method header are present; those two entries
are dereferenced unconditionally. -/
theorem finalize_total_amended (h : HeaderMap) (si : StreamInfo) (cfg : Config)
    (hp : h.envoyOriginalPath ≠ none ∨ h.path ≠ none) (hm : h.method ≠ none) :
    (HttpTracerUtility.finalizeSpan (some h) si cfg).isSome = true := by
  have hurl : ∃ url, buildUrl h = some url := by
    unfold buildUrl
    cases hov : h.envoyOriginalPath with
    | some p => exact ⟨_, rfl⟩
    | none =>
      cases hpath : h.path with
      | some p => exact ⟨_, rfl⟩
      | none => rcases hp with hp | hp <;> simp [hov, hpath] at hp
  rcases hurl with ⟨url, hurl⟩
  rcases Option.ne_none_iff_exists.mp hm with ⟨m, hmeq⟩
  simp [HttpTracerUtility.finalizeSpan, preResponseOps, hurl, ← hmeq]

/-- Witness for the amended C3: with Path and Method present, finalize
completes. -/
theorem finalize_total_amended_witness :
    (HttpTracerUtility.finalizeSpan (some hmFull) siBase cfgPlain).isSome = true :=
  finalize_total_amended hmFull siBase cfgPlain (Or.inr (by decide)) (by decide)

/-! ### C4 — the URL tag -/

/-- C4: the URL tag written by finalize is scheme://host concatenated with
the selected path (original-path override if present, else the Path header),
the path truncated to its first 128 characters when longer, scheme and host
never truncated; and it is the only URL tag written. -/
theorem finalize_url_tag (h : HeaderMap) (si : StreamInfo) (cfg : Config) (ops : List SpanOp)
    (hops : HttpTracerUtility.finalizeSpan (some h) si cfg = some ops) :
    ∃ p, (match h.envoyOriginalPath with | some q => some q | none => h.path) = some p ∧
      SpanOp.setTag TagKey.HttpUrl
        (valueOrDefault h.forwardedProto "" ++ "://" ++ valueOrDefault h.host ""
         ++ (if 128 < p.length then p.take 128 else p)) ∈ ops ∧
      ∀ v, SpanOp.setTag TagKey.HttpUrl v ∈ ops →
        v = valueOrDefault h.forwardedProto "" ++ "://" ++ valueOrDefault h.host ""
            ++ (if 128 < p.length then p.take 128 else p) := by
  rcases finalizeSpan_eq_some hops with ⟨heq, -⟩ | ⟨h2, pre, heq, hpre, rfl⟩
  · exact absurd heq (by simp)
  · injection heq with heq
    subst heq
    obtain ⟨url, m, hurl, hmeth, rfl⟩ := preResponseOps_eq hpre
    obtain ⟨p, hsel, rfl⟩ := buildUrl_eq hurl
    refine ⟨p, hsel, ?_, ?_⟩
    · simp [List.mem_append]
    · intro v hv
      rcases List.mem_append.mp hv with hv | hv
      · rcases List.mem_append.mp hv with hv | hv
        · obtain ⟨v2, -, heq2⟩ := mem_reqIdOps hv
          simp at heq2
        · rcases List.mem_append.mp hv with hv | hv
          · simp at hv
            exact hv
          · rcases List.mem_append.mp hv with hv | hv
            · obtain ⟨v2, -, heq2⟩ := mem_clientTraceOps hv
              simp at heq2
            · obtain ⟨n, v2, -, heq2⟩ := mem_customOps hv
              simp at heq2
      · rcases List.mem_append.mp hv with hv | hv
        · rcases mem_postOps hv with ⟨t, n, heq2⟩ | heq2 | hk | hk | hk | hk | hk
          · simp at heq2
          · simp at heq2
          all_goals simp [SpanOp.tagKey?] at hk
        · simp at hv

/-- Witness for C4: the URL tag of a concrete request. -/
theorem finalize_url_tag_witness :
    ∃ p, (match hmFull.envoyOriginalPath with
          | some q => some q
          | none => hmFull.path) = some p ∧
      SpanOp.setTag TagKey.HttpUrl
        (valueOrDefault hmFull.forwardedProto "" ++ "://" ++ valueOrDefault hmFull.host ""
         ++ (if 128 < p.length then p.take 128 else p))
        ∈ ((HttpTracerUtility.finalizeSpan (some hmFull) siBase cfgPlain).getD []) :=
  match finalize_url_tag hmFull siBase cfgPlain _ rfl with
  | ⟨p, hsel, hmem, _⟩ => ⟨p, hsel, hmem⟩

/-! ### C5 — the error tag -/

lemma errorTag_mem_errorOps_iff (si : StreamInfo) :
    SpanOp.setTag TagKey.Error "true" ∈ errorOps si ↔
      si.responseCode = none ∨ ∃ c, si.responseCode = some c ∧ is5xx c = true := by
  cases hrc : si.responseCode with
  | none => simp [errorOps, hrc]
  | some c =>
    by_cases h5 : is5xx c
    · simp [errorOps, hrc, h5]
    · simp [errorOps, hrc, h5]

lemma errorTag_mem_postOps_iff (si : StreamInfo) (cfg : Config) :
    SpanOp.setTag TagKey.Error "true" ∈ postOps si cfg ↔
      SpanOp.setTag TagKey.Error "true" ∈ errorOps si := by
  constructor
  · intro hv
    rcases List.mem_append.mp hv with hv | hv
    · rcases List.mem_append.mp hv with hv | hv
      · rcases tagKey_of_mem_alwaysOps hv with hk | hk | hk | hk | hk <;>
          simp [SpanOp.tagKey?] at hk
      · revert hv
        split
        · intro hv
          obtain ⟨t, n, heq⟩ := isLog_of_mem_annotateVerbose hv
          simp at heq
        · intro hv
          simp at hv
    · exact hv
  · intro hv
    exact List.mem_append.mpr (Or.inr hv)

/-- C5: finalize writes the error tag (value the fixed "true" marker) exactly
when no response code was recorded or the recorded code is 5xx. -/
theorem finalize_error_tag (request_headers : Option HeaderMap) (si : StreamInfo)
    (cfg : Config) (ops : List SpanOp)
    (hops : HttpTracerUtility.finalizeSpan request_headers si cfg = some ops) :
    SpanOp.setTag TagKey.Error "true" ∈ ops ↔
      si.responseCode = none ∨ ∃ c, si.responseCode = some c ∧ is5xx c = true := by
  rw [← errorTag_mem_errorOps_iff si, ← errorTag_mem_postOps_iff si cfg]
  rcases finalizeSpan_eq_some hops with ⟨-, rfl⟩ | ⟨h, pre, -, hpre, rfl⟩
  · constructor
    · intro hv
      rcases List.mem_append.mp hv with hv | hv
      · exact hv
      · simp at hv
    · intro hv
      exact List.mem_append.mpr (Or.inl hv)
  · constructor
    · intro hv
      rcases List.mem_append.mp hv with hv | hv
      · obtain ⟨url, m, -, -, rfl⟩ := preResponseOps_eq hpre
        rcases List.mem_append.mp hv with hv | hv
        · obtain ⟨v2, -, heq2⟩ := mem_reqIdOps hv
          simp at heq2
        · rcases List.mem_append.mp hv with hv | hv
          · simp at hv
          · rcases List.mem_append.mp hv with hv | hv
            · obtain ⟨v2, -, heq2⟩ := mem_clientTraceOps hv
              simp at heq2
            · obtain ⟨n, v2, -, heq2⟩ := mem_customOps hv
              simp at heq2
      · rcases List.mem_append.mp hv with hv | hv
        · exact hv
        · simp at hv
    · intro hv
      exact List.mem_append.mpr (Or.inr (List.mem_append.mpr (Or.inl hv)))

/-- Record with a 503 response. -/
def si503 : StreamInfo := { siBase with responseCode := some 503 }

/-- Record with a 404 response. -/
def si404 : StreamInfo := { siBase with responseCode := some 404 }

/-- Witness for C5: 503 sets the error tag; 404 does not. -/
theorem finalize_error_tag_witness :
    SpanOp.setTag TagKey.Error "true"
      ∈ ((HttpTracerUtility.finalizeSpan none si503 cfgPlain).getD []) ∧
    SpanOp.setTag TagKey.Error "true"
      ∉ ((HttpTracerUtility.finalizeSpan none si404 cfgPlain).getD []) := by
  constructor
  · exact (finalize_error_tag none si503 cfgPlain _ rfl).mpr
      (Or.inr ⟨503, rfl, by decide⟩)
  · intro hmem
    have hrhs := (finalize_error_tag none si404 cfgPlain _ rfl).mp hmem
    rcases hrhs with hnone | ⟨c, hc, h5⟩
    · exact absurd hnone (by decide)
    · have hc2 : (404 : Nat) = c := by
        injection (show some (404 : Nat) = some c from hc)
      subst hc2
      exact absurd h5 (by decide)

/-! ### C9 — finish is last and exactly once: counterexample, amended claim -/

lemma finish_not_mem_postOps (si : StreamInfo) (cfg : Config) :
    SpanOp.finish ∉ postOps si cfg := by
  intro hmem
  rcases mem_postOps hmem with ⟨t, n, heq⟩ | heq | hk | hk | hk | hk | hk
  · exact absurd heq (by simp)
  · exact absurd heq (by simp)
  all_goals simp [SpanOp.tagKey?] at hk

lemma finish_not_mem_pre {h : HeaderMap} {si : StreamInfo} {cfg : Config}
    {pre : List SpanOp} (hpre : preResponseOps h si cfg = some pre) :
    SpanOp.finish ∉ pre := by
  obtain ⟨url, m, -, -, rfl⟩ := preResponseOps_eq hpre
  intro hmem
  rcases List.mem_append.mp hmem with hmem | hmem
  · obtain ⟨v, -, heq⟩ := mem_reqIdOps hmem
    simp at heq
  · rcases List.mem_append.mp hmem with hmem | hmem
    · simp at hmem
    · rcases List.mem_append.mp hmem with hmem | hmem
      · obtain ⟨v, -, heq⟩ := mem_clientTraceOps hmem
        simp at heq
      · obtain ⟨n, v, -, heq⟩ := mem_customOps hmem
        simp at heq

/-- C9 counterexample: an execution of finalize on a header map whose Method
header is absent faults before `span.finishSpan()`; no operation sequence is
produced at all, so finishSpan is not invoked in that execution, against the
claim's "regardless of which headers were present". -/
theorem finish_counterexample :
    HttpTracerUtility.finalizeSpan (some { hmFull with method := none }) siBase cfgPlain
      = none := by
  rfl

/-- C9 (amended): in every execution of finalize that completes (does not
fault on the unconditional Path/Method dereferences), finishSpan is invoked
exactly once, as the last operation, with no tag or log write after it. -/
theorem finish_last_amended (request_headers : Option HeaderMap) (si : StreamInfo)
    (cfg : Config) (ops : List SpanOp)
    (hops : HttpTracerUtility.finalizeSpan request_headers si cfg = some ops) :
    ∃ pre, ops = pre ++ [SpanOp.finish] ∧ SpanOp.finish ∉ pre := by
  rcases finalizeSpan_eq_some hops with ⟨-, rfl⟩ | ⟨h, pre, -, hpre, rfl⟩
  · exact ⟨postOps si cfg, rfl, finish_not_mem_postOps si cfg⟩
  · refine ⟨pre ++ postOps si cfg, by simp, ?_⟩
    intro hmem
    rcases List.mem_append.mp hmem with hmem | hmem
    · exact finish_not_mem_pre hpre hmem
    · exact finish_not_mem_postOps si cfg hmem

/-- Witness for the amended C9 at a concrete completing execution. -/
theorem finish_last_amended_witness :
    ∃ pre, (HttpTracerUtility.finalizeSpan (some hmFull) siBase cfgVerbose).getD []
        = pre ++ [SpanOp.finish] ∧ SpanOp.finish ∉ pre :=
  finish_last_amended (some hmFull) siBase cfgVerbose _ rfl

/-! ### C8 — placeholder tags and the user-agent variation -/

/-- Rewrites the value of a user-agent tag write to the one derived from the
given header value, leaving every other operation unchanged. -/
def setUserAgentValue (ua : Option String) : SpanOp → SpanOp
  | SpanOp.setTag TagKey.UserAgent _ => SpanOp.setTag TagKey.UserAgent (valueOrDefault ua "-")
  | op => op

lemma tagKey?_setUA (ua : Option String) (op : SpanOp) :
    (setUserAgentValue ua op).tagKey? = op.tagKey? := by
  cases op with
  | setTag k v => cases k <;> rfl
  | log t n => rfl
  | finish => rfl

lemma tagKeys_map_setUA (ua : Option String) (l : List SpanOp) :
    tagKeys (l.map (setUserAgentValue ua)) = tagKeys l := by
  unfold tagKeys
  rw [List.filterMap_map]
  congr 1
  funext op
  exact tagKey?_setUA ua op

lemma buildUrl_update_ua (h : HeaderMap) (ua : Option String) :
    buildUrl { h with userAgent := ua } = buildUrl h := rfl

lemma method_update_ua (h : HeaderMap) (ua : Option String) :
    ({ h with userAgent := ua } : HeaderMap).method = h.method := rfl

lemma reqIdOps_update_ua (h : HeaderMap) (ua : Option String) :
    reqIdOps { h with userAgent := ua } = reqIdOps h := rfl

lemma clientTraceOps_update_ua (h : HeaderMap) (ua : Option String) :
    clientTraceOps { h with userAgent := ua } = clientTraceOps h := rfl

lemma customOps_update_ua (h : HeaderMap) (ua : Option String) :
    ∀ names, customOps { h with userAgent := ua } names = customOps h names := by
  intro names
  induction names with
  | nil => rfl
  | cons n rest ih =>
    simp only [customOps, ih]
    rfl

lemma setUA_map_reqIdOps (h : HeaderMap) (ua : Option String) :
    (reqIdOps h).map (setUserAgentValue ua) = reqIdOps h := by
  cases hr : h.requestId <;> simp only [reqIdOps, hr] <;> rfl

lemma setUA_map_clientTraceOps (h : HeaderMap) (ua : Option String) :
    (clientTraceOps h).map (setUserAgentValue ua) = clientTraceOps h := by
  cases hr : h.clientTraceId <;> simp only [clientTraceOps, hr] <;> rfl

lemma setUA_map_customOps (h : HeaderMap) (ua : Option String) :
    ∀ names, (customOps h names).map (setUserAgentValue ua) = customOps h names := by
  intro names
  induction names with
  | nil => rfl
  | cons n rest ih =>
    cases hg : h.get n <;> simp only [customOps, hg, List.map_append, ih] <;> rfl

lemma setUA_map_alwaysOps (si : StreamInfo) (ua : Option String) :
    (alwaysOps si).map (setUserAgentValue ua) = alwaysOps si := by
  cases hu : si.upstreamHost <;> simp only [alwaysOps, hu] <;> rfl

lemma setUA_map_optLog (t : Nat) (o : Option Nat) (n : LogName) (ua : Option String) :
    (optLog t o n).map (setUserAgentValue ua) = optLog t o n := by
  cases o <;> rfl

lemma setUA_map_annotateVerbose (si : StreamInfo) (ua : Option String) :
    (annotateVerbose si).map (setUserAgentValue ua) = annotateVerbose si := by
  simp only [annotateVerbose, List.map_append, setUA_map_optLog]

lemma setUA_map_errorOps (si : StreamInfo) (ua : Option String) :
    (errorOps si).map (setUserAgentValue ua) = errorOps si := by
  cases hrc : si.responseCode with
  | none => simp only [errorOps, hrc]; rfl
  | some c =>
    by_cases h5 : is5xx c
    · simp only [errorOps, hrc, h5, if_true]
      rfl
    · simp [errorOps, hrc, h5]

lemma setUA_map_postOps (si : StreamInfo) (cfg : Config) (ua : Option String) :
    (postOps si cfg).map (setUserAgentValue ua) = postOps si cfg := by
  unfold postOps
  rw [List.map_append, List.map_append, setUA_map_alwaysOps, setUA_map_errorOps]
  congr 1
  congr 1
  split
  · exact setUA_map_annotateVerbose si ua
  · rfl

lemma preResponseOps_update_ua (h : HeaderMap) (ua : Option String) (si : StreamInfo)
    (cfg : Config) :
    preResponseOps { h with userAgent := ua } si cfg
      = (preResponseOps h si cfg).map (List.map (setUserAgentValue ua)) := by
  unfold preResponseOps
  rw [buildUrl_update_ua, method_update_ua]
  generalize hh2 : ({ h with userAgent := ua } : HeaderMap) = h2
  cases hbu : buildUrl h with
  | none => cases hme : h.method <;> rfl
  | some url =>
    cases hme : h.method with
    | none => rfl
    | some m =>
      subst hh2
      refine congrArg some ?_
      rw [List.map_append, List.map_append, List.map_append,
          setUA_map_reqIdOps, setUA_map_clientTraceOps, setUA_map_customOps,
          customOps_update_ua]
      rfl

lemma finalizeSpan_update_ua (h : HeaderMap) (ua : Option String) (si : StreamInfo)
    (cfg : Config) :
    HttpTracerUtility.finalizeSpan (some { h with userAgent := ua }) si cfg
      = (HttpTracerUtility.finalizeSpan (some h) si cfg).map
          (List.map (setUserAgentValue ua)) := by
  have hl : HttpTracerUtility.finalizeSpan (some { h with userAgent := ua }) si cfg
      = match preResponseOps { h with userAgent := ua } si cfg with
        | none => none
        | some pre => some (pre ++ postOps si cfg ++ [SpanOp.finish]) := rfl
  have hr : HttpTracerUtility.finalizeSpan (some h) si cfg
      = match preResponseOps h si cfg with
        | none => none
        | some pre => some (pre ++ postOps si cfg ++ [SpanOp.finish]) := rfl
  rw [hl, hr, preResponseOps_update_ua]
  cases hpre : preResponseOps h si cfg with
  | none => rfl
  | some pre =>
    show some ((pre.map (setUserAgentValue ua)) ++ postOps si cfg ++ [SpanOp.finish])
        = some ((pre ++ postOps si cfg ++ [SpanOp.finish]).map (setUserAgentValue ua))
    refine congrArg some ?_
    rw [List.map_append, List.map_append, setUA_map_postOps]
    rfl

/-- C8: finalize always writes the user-agent and downstream-cluster tags,
"-" standing in for an absent header; it writes the client-trace-id tag iff
that header is present (no placeholder); and replacing only the User-Agent
header yields the same operation sequence with only the user-agent tag's
value changed — in particular identical tag-key sequences. -/
theorem finalize_placeholder_tags (h : HeaderMap) (si : StreamInfo) (cfg : Config)
    (ops : List SpanOp)
    (hops : HttpTracerUtility.finalizeSpan (some h) si cfg = some ops) :
    SpanOp.setTag TagKey.UserAgent (valueOrDefault h.userAgent "-") ∈ ops ∧
    SpanOp.setTag TagKey.DownstreamCluster
      (valueOrDefault h.envoyDownstreamServiceCluster "-") ∈ ops ∧
    ((∃ v, SpanOp.setTag TagKey.GuidXClientTraceId v ∈ ops) ↔
      h.clientTraceId.isSome = true) ∧
    (∀ ua ops2,
      HttpTracerUtility.finalizeSpan (some { h with userAgent := ua }) si cfg = some ops2 →
      ops2 = ops.map (setUserAgentValue ua) ∧ tagKeys ops2 = tagKeys ops) := by
  have hvar : ∀ ua ops2,
      HttpTracerUtility.finalizeSpan (some { h with userAgent := ua }) si cfg = some ops2 →
      ops2 = ops.map (setUserAgentValue ua) ∧ tagKeys ops2 = tagKeys ops := by
    intro ua ops2 hops2
    rw [finalizeSpan_update_ua, hops] at hops2
    simp only [Option.map_some'] at hops2
    injection hops2 with hops2
    subst hops2
    exact ⟨rfl, tagKeys_map_setUA ua ops⟩
  rcases finalizeSpan_eq_some hops with ⟨heq, -⟩ | ⟨h2, pre, heq, hpre, rfl⟩
  · exact absurd heq (by simp)
  · injection heq with heq
    subst heq
    obtain ⟨url, m, hurl, hmeth, rfl⟩ := preResponseOps_eq hpre
    refine ⟨?_, ?_, ?_, hvar⟩
    · simp [List.mem_append]
    · simp [List.mem_append]
    · constructor
      · rintro ⟨v, hv⟩
        rcases List.mem_append.mp hv with hv | hv
        · rcases List.mem_append.mp hv with hv | hv
          · obtain ⟨v2, -, heq2⟩ := mem_reqIdOps hv
            simp at heq2
          · rcases List.mem_append.mp hv with hv | hv
            · simp at hv
            · rcases List.mem_append.mp hv with hv | hv
              · obtain ⟨v2, hct, -⟩ := mem_clientTraceOps hv
                simp [hct]
              · obtain ⟨n, v2, -, heq2⟩ := mem_customOps hv
                simp at heq2
        · rcases List.mem_append.mp hv with hv | hv
          · rcases mem_postOps hv with ⟨t, n, heq2⟩ | heq2 | hk | hk | hk | hk | hk
            · simp at heq2
            · simp at heq2
            all_goals simp [SpanOp.tagKey?] at hk
          · simp at hv
      · intro hct
        rcases Option.isSome_iff_exists.mp hct with ⟨v, hv⟩
        refine ⟨v, ?_⟩
        have hmem : SpanOp.setTag TagKey.GuidXClientTraceId v ∈ clientTraceOps h := by
          simp [clientTraceOps, hv]
        exact List.mem_append.mpr (Or.inl (List.mem_append.mpr (Or.inr
          (List.mem_append.mpr (Or.inr (List.mem_append.mpr (Or.inl hmem)))))))

/-- Witness for C8: the user-agent tag of a concrete request carries the
header value, and the headerless request carries the placeholder. -/
theorem finalize_placeholder_tags_witness :
    SpanOp.setTag TagKey.UserAgent (valueOrDefault hmFull.userAgent "-")
      ∈ ((HttpTracerUtility.finalizeSpan (some hmFull) siBase cfgPlain).getD []) :=
  (finalize_placeholder_tags hmFull siBase cfgPlain _ rfl).1

end Tracing
